import Mathlib

/-!
Shallow embedding of the chunked file-upload session service
(`backend/app/main.py`): a flat filesystem modelled as an association
list from paths to byte lists, a session database modelled as an
association list from session ids to session records, and the three
operations `start_session`, `upload_chunk` and `finalize` ported
statement by statement from the source.

Modelling conventions:
- bytes are `Nat`s; file contents are `List Nat`;
- every path the program builds is a directory (`TMP_DIR` or `SESS_DIR`)
  joined with a single name, so a path is a pair of a `Dir` tag and a
  name string;
- the nondeterministic inputs of `start_session` (the two `uuid4` hex
  strings and the `datetime.utcnow` timestamp) are explicit arguments;
- a raised `HTTPException` is an `Except.error` carrying status code and
  detail; an error leaves the state with the caller, matching the source
  where the exception is raised before any mutation is saved;
- `shutil.move` follows POSIX `rename` semantics: it overwrites an
  existing regular file at the destination and is a no-op when source
  and destination coincide;
- `tmp_file.parent.mkdir` is a no-op in a flat path-to-contents map and
  is not modelled.
-/

/-! ### Association lists (the JSON db mapping and the filesystem) -/

section Alist

variable {α β : Type} [DecidableEq α]

def alistFind : List (α × β) → α → Option β
  | [], _ => none
  | (k, v) :: rest, a => if k = a then some v else alistFind rest a

def alistRemove (l : List (α × β)) (a : α) : List (α × β) :=
  l.filter (fun q => decide (q.1 ≠ a))

def alistInsert (l : List (α × β)) (a : α) (v : β) : List (α × β) :=
  (a, v) :: alistRemove l a

theorem alistFind_remove_self (l : List (α × β)) (a : α) :
    alistFind (alistRemove l a) a = none := by
  induction l with
  | nil => rfl
  | cons q rest ih =>
    by_cases h : q.1 = a
    · simpa [alistRemove, h] using ih
    · simpa [alistRemove, alistFind, h] using ih

theorem alistFind_remove_ne (l : List (α × β)) (a b : α) (h : b ≠ a) :
    alistFind (alistRemove l a) b = alistFind l b := by
  induction l with
  | nil => rfl
  | cons q rest ih =>
    by_cases hq : q.1 = a
    · have hqb : ¬ q.1 = b := by
        rw [hq]
        exact fun hc => h hc.symm
      have hrem : alistRemove (q :: rest) a = alistRemove rest a := by
        simp [alistRemove, hq]
      rw [hrem, ih]
      simp [alistFind, hqb]
    · have hrem : alistRemove (q :: rest) a = q :: alistRemove rest a := by
        simp [alistRemove, hq]
      rw [hrem]
      by_cases hqb : q.1 = b
      · simp [alistFind, hqb]
      · simp [alistFind, hqb, ih]

theorem alistFind_insert_self (l : List (α × β)) (a : α) (v : β) :
    alistFind (alistInsert l a v) a = some v := by
  simp [alistInsert, alistFind]

theorem alistFind_insert_ne (l : List (α × β)) (a b : α) (v : β) (h : b ≠ a) :
    alistFind (alistInsert l a v) b = alistFind l b := by
  have h' : a ≠ b := fun hc => h hc.symm
  simp [alistInsert, alistFind, h']
  exact alistFind_remove_ne l a b h

end Alist

/-! ### Paths and the filesystem -/

/-- The two directories the service writes files into:
`TMP_DIR = DATA_DIR / "tmp"` and `SESS_DIR = DATA_DIR / "sessions"`. -/
inductive Dir : Type
  | tmpDir : Dir
  | sessDir : Dir
deriving DecidableEq

/-- A filesystem path as the program builds them: a directory joined
with a single file name. -/
structure FPath where
  dir : Dir
  name : String
deriving DecidableEq

/-- The filesystem: a flat map from paths to file contents. -/
def FS : Type := List (FPath × List Nat)

instance : DecidableEq FS := by
  unfold FS
  infer_instance

def fsRead (fs : FS) (p : FPath) : Option (List Nat) :=
  alistFind fs p

def fsWrite (fs : FS) (p : FPath) (c : List Nat) : FS :=
  alistInsert fs p c

def fsRemove (fs : FS) (p : FPath) : FS :=
  alistRemove fs p

/-- `Path.exists()`. -/
def fsExists (fs : FS) (p : FPath) : Bool :=
  (fsRead fs p).isSome

/-- `open("ab")` followed by `write(data)`: append to the file, creating
it when absent. -/
def fsAppend (fs : FS) (p : FPath) (data : List Nat) : FS :=
  fsWrite fs p ((fsRead fs p).getD [] ++ data)

/-- `stat().st_size` of an existing file (0 when absent). -/
def statSize (fs : FS) (p : FPath) : Nat :=
  ((fsRead fs p).getD []).length

/-- `shutil.move(src, dst)` on a same-filesystem regular file: a rename,
overwriting any regular file at `dst`; a no-op when `src = dst`. The
callers in the source only move existing files. -/
def fsMove (fs : FS) (src dst : FPath) : FS :=
  match fsRead fs src with
  | none => fs
  | some c => if src = dst then fs else fsRemove (fsWrite fs dst c) src

theorem fsRead_fsWrite_self (fs : FS) (p : FPath) (c : List Nat) :
    fsRead (fsWrite fs p c) p = some c :=
  alistFind_insert_self fs p c

theorem fsRead_fsWrite_ne (fs : FS) (p q : FPath) (c : List Nat) (h : q ≠ p) :
    fsRead (fsWrite fs p c) q = fsRead fs q :=
  alistFind_insert_ne fs p q c h

theorem fsRead_fsAppend_self (fs : FS) (p : FPath) (data : List Nat) :
    fsRead (fsAppend fs p data) p = some ((fsRead fs p).getD [] ++ data) :=
  fsRead_fsWrite_self fs p _

theorem fsRead_fsAppend_ne (fs : FS) (p q : FPath) (data : List Nat) (h : q ≠ p) :
    fsRead (fsAppend fs p data) q = fsRead fs q :=
  fsRead_fsWrite_ne fs p q _ h

theorem fsRead_fsMove_dst (fs : FS) (src dst : FPath) (c : List Nat)
    (hsrc : fsRead fs src = some c) (hne : src ≠ dst) :
    fsRead (fsMove fs src dst) dst = some c := by
  have hd : dst ≠ src := fun hc => hne hc.symm
  unfold fsMove
  rw [hsrc]
  simp only [if_neg hne]
  show alistFind (alistRemove (alistInsert fs dst c) src) dst = some c
  rw [alistFind_remove_ne _ src dst hd]
  exact alistFind_insert_self fs dst c

theorem fsRead_fsMove_src (fs : FS) (src dst : FPath) (c : List Nat)
    (hsrc : fsRead fs src = some c) (hne : src ≠ dst) :
    fsRead (fsMove fs src dst) src = none := by
  unfold fsMove
  rw [hsrc]
  simp only [if_neg hne]
  show alistFind (alistRemove (alistInsert fs dst c) src) src = none
  exact alistFind_remove_self _ src

theorem fsRead_fsMove_other (fs : FS) (src dst q : FPath)
    (h1 : q ≠ src) (h2 : q ≠ dst) :
    fsRead (fsMove fs src dst) q = fsRead fs q := by
  unfold fsMove
  cases hsrc : fsRead fs src with
  | none => rfl
  | some c =>
    by_cases he : src = dst
    · simp [he]
    · simp only [if_neg he]
      show alistFind (alistRemove (alistInsert fs dst c) src) q = fsRead fs q
      rw [alistFind_remove_ne _ src q h1]
      exact alistFind_insert_ne fs dst q c h2

/-! ### Data model: the session record and the server state -/

/-- One row of `db["sessions"]`, exactly the dict written by
`start_session`. -/
structure SessionRow where
  id : String
  upload_id : String
  filename : String
  size : Option Nat
  mime : Option String
  created_at : String
  status : String
  tmp_path : FPath
  final_path : Option FPath
  bytes_received : Nat
deriving DecidableEq

/-- The whole server state: the filesystem plus the persisted
`{"sessions": {...}}` mapping (`_load_db` / `_save_db` are read and
write of the `sessions` field). -/
structure SrvState where
  fs : FS
  sessions : List (String × SessionRow)
deriving DecidableEq

def SrvState.init : SrvState :=
  { fs := [], sessions := [] }

/-- An `HTTPException(status_code, detail)`. -/
structure HErr where
  status : Nat
  detail : String
deriving DecidableEq

/-! ### Request and response schemas -/

structure StartReq where
  filename : String
  size : Option Nat
  mime : Option String
deriving DecidableEq

structure StartResp where
  session_id : String
  upload_id : String
  tmp_path : FPath
deriving DecidableEq

structure ChunkResp where
  ok : Bool
  bytes_received : Nat
  content_range : Option String
deriving DecidableEq

structure FinalizeResp where
  session_id : String
  final_path : FPath
  size : Nat
deriving DecidableEq

/-! ### The three operations -/

/-- `TMP_DIR / f"{session_id}.part"`. -/
def tmpPathOf (session_id : String) : FPath :=
  { dir := Dir.tmpDir, name := session_id ++ ".part" }

/-- `POST /v1/sessions/start`. The two `uuid4().hex` values and the
timestamp are passed in as `session_id`, `upload_id`, `created_at`. -/
def start_session (req : StartReq) (session_id upload_id created_at : String)
    (s : SrvState) : SrvState × StartResp :=
  let tmp_file := tmpPathOf session_id
  let fs1 := fsWrite s.fs tmp_file []
  let row : SessionRow :=
    { id := session_id
      upload_id := upload_id
      filename := req.filename
      size := req.size
      mime := req.mime
      created_at := created_at
      status := "uploading"
      tmp_path := tmp_file
      final_path := none
      bytes_received := 0 }
  ({ fs := fs1, sessions := alistInsert s.sessions session_id row },
   { session_id := session_id, upload_id := upload_id, tmp_path := tmp_file })

/-- The guard `if upload_id and upload_id != row["upload_id"]`: a missing
header is `None` (falsy) and an empty header value is `""` (also falsy),
so in both cases the check is skipped. -/
def upload_id_mismatch (upload_id : Option String) (stored : String) : Bool :=
  match upload_id with
  | none => false
  | some u => (!(u == "")) && (u != stored)

/-- `POST /v1/sessions/{session_id}/upload-chunk`. -/
def upload_chunk (session_id : String) (data : List Nat)
    (content_range upload_id : Option String) (s : SrvState) :
    Except HErr (SrvState × ChunkResp) :=
  match alistFind s.sessions session_id with
  | none => Except.error { status := 404, detail := "session not found" }
  | some row =>
    if upload_id_mismatch upload_id row.upload_id then
      Except.error { status := 409, detail := "upload_id mismatch" }
    else
      let tmp_file := row.tmp_path
      let fs1 := fsAppend s.fs tmp_file data
      let bytes1 := statSize fs1 tmp_file
      let row1 := { row with bytes_received := bytes1 }
      Except.ok
        ({ fs := fs1, sessions := alistInsert s.sessions session_id row1 },
         { ok := true, bytes_received := bytes1, content_range := content_range })

/-- The index at which `os.path.splitext` (posixpath) splits `p`, when
it splits at all: the last dot of the final path component, unless every
character between the last separator and that dot is itself a dot (so
`".bashrc"` has no extension). -/
def extIdx (p : String) : Option Nat :=
  let l := p.data
  let start :=
    match l.reverse.findIdx? (· = '/') with
    | none => 0
    | some i => l.length - i
  match l.reverse.findIdx? (· = '.') with
  | none => none
  | some i =>
    let d := l.length - 1 - i
    if start ≤ d ∧ (((List.range d).drop start).any (fun j => l.getD j ' ' ≠ '.')) then
      some d
    else
      none

/-- `os.path.splitext`. -/
def splitext (p : String) : String × String :=
  match extIdx p with
  | none => (p, "")
  | some d => (String.mk (p.data.take d), String.mk (p.data.drop d))

/-- `row["filename"] or f"{session_id}.mp4"`: Python `or` falls through
on a falsy (empty) string. -/
def final_name_of (session_id : String) (row : SessionRow) : String :=
  if row.filename = "" then session_id ++ ".mp4" else row.filename

/-- The destination path `finalize` picks: `SESS_DIR / final_name`,
disambiguated once to `SESS_DIR / f"{stem}_{session_id}{ext}"` when a
file already sits at the exact first choice. -/
def dest_path_of (session_id : String) (row : SessionRow) (fs : FS) : FPath :=
  let final_name := final_name_of session_id row
  let final_path : FPath := { dir := Dir.sessDir, name := final_name }
  if fsExists fs final_path then
    let se := splitext final_name
    { dir := Dir.sessDir, name := se.1 ++ "_" ++ session_id ++ se.2 }
  else
    final_path

/-- `POST /v1/sessions/{session_id}/finalize`. -/
def finalize (session_id : String) (s : SrvState) :
    Except HErr (SrvState × FinalizeResp) :=
  match alistFind s.sessions session_id with
  | none => Except.error { status := 404, detail := "session not found" }
  | some row =>
    let tmp_file := row.tmp_path
    if fsExists s.fs tmp_file then
      let final_path := dest_path_of session_id row s.fs
      let fs1 := fsMove s.fs tmp_file final_path
      let sz := statSize fs1 final_path
      let row1 :=
        { row with
          final_path := some final_path
          status := "complete"
          size := some sz }
      Except.ok
        ({ fs := fs1, sessions := alistInsert s.sessions session_id row1 },
         { session_id := session_id, final_path := final_path, size := sz })
    else
      Except.error { status := 400, detail := "no tmp file to finalize" }

/-! ### Inversion lemmas for the success cases -/

theorem upload_chunk_ok_inv (session_id : String) (data : List Nat)
    (content_range upload_id : Option String) (s s' : SrvState) (resp : ChunkResp)
    (h : upload_chunk session_id data content_range upload_id s = Except.ok (s', resp)) :
    ∃ row, alistFind s.sessions session_id = some row ∧
      upload_id_mismatch upload_id row.upload_id = false ∧
      s'.fs = fsAppend s.fs row.tmp_path data ∧
      s'.sessions = alistInsert s.sessions session_id
        { row with bytes_received := statSize (fsAppend s.fs row.tmp_path data) row.tmp_path } ∧
      resp = { ok := true,
               bytes_received := statSize (fsAppend s.fs row.tmp_path data) row.tmp_path,
               content_range := content_range } := by
  unfold upload_chunk at h
  cases hrow : alistFind s.sessions session_id with
  | none =>
    rw [hrow] at h
    exact absurd h (by simp)
  | some row =>
    simp only [hrow] at h
    by_cases hm : upload_id_mismatch upload_id row.upload_id
    · rw [if_pos hm] at h
      exact absurd h (by simp)
    · rw [if_neg hm] at h
      simp only [Except.ok.injEq, Prod.mk.injEq] at h
      obtain ⟨hs, hr⟩ := h
      refine ⟨row, rfl, by simpa using hm, ?_, ?_, hr.symm⟩
      · rw [← hs]
      · rw [← hs]

theorem finalize_ok_inv (session_id : String) (s s' : SrvState) (resp : FinalizeResp)
    (h : finalize session_id s = Except.ok (s', resp)) :
    ∃ row, alistFind s.sessions session_id = some row ∧
      fsExists s.fs row.tmp_path = true ∧
      s'.fs = fsMove s.fs row.tmp_path (dest_path_of session_id row s.fs) ∧
      s'.sessions = alistInsert s.sessions session_id
        { row with
          final_path := some (dest_path_of session_id row s.fs)
          status := "complete"
          size := some (statSize (fsMove s.fs row.tmp_path (dest_path_of session_id row s.fs))
                          (dest_path_of session_id row s.fs)) } ∧
      resp = { session_id := session_id
               final_path := dest_path_of session_id row s.fs
               size := statSize (fsMove s.fs row.tmp_path (dest_path_of session_id row s.fs))
                         (dest_path_of session_id row s.fs) } := by
  unfold finalize at h
  cases hrow : alistFind s.sessions session_id with
  | none =>
    rw [hrow] at h
    exact absurd h (by simp)
  | some row =>
    simp only [hrow] at h
    by_cases he : fsExists s.fs row.tmp_path
    · rw [if_pos he] at h
      simp only [Except.ok.injEq, Prod.mk.injEq] at h
      obtain ⟨hs, hr⟩ := h
      refine ⟨row, rfl, by simpa using he, ?_, ?_, hr.symm⟩
      · rw [← hs]
      · rw [← hs]
    · rw [if_neg he] at h
      exact absurd h (by simp)

/-! ### C6: StartSession -/

/-- Claim C6: for every filename, optional size and optional mime,
`StartSession` succeeds and writes a session record with status
`"uploading"`, `bytes_received = 0` and `final_path = null`, creates an
existing empty temporary file at the path derived from the generated
session id, and returns the session id, upload id and tmp path. -/
theorem C6_start_session_fresh (req : StartReq)
    (session_id upload_id created_at : String) (s : SrvState) :
    (start_session req session_id upload_id created_at s).2 =
      { session_id := session_id, upload_id := upload_id,
        tmp_path := tmpPathOf session_id } ∧
    alistFind (start_session req session_id upload_id created_at s).1.sessions
        session_id =
      some { id := session_id, upload_id := upload_id, filename := req.filename,
             size := req.size, mime := req.mime, created_at := created_at,
             status := "uploading", tmp_path := tmpPathOf session_id,
             final_path := none, bytes_received := 0 } ∧
    fsRead (start_session req session_id upload_id created_at s).1.fs
        (tmpPathOf session_id) = some [] := by
  refine ⟨rfl, ?_, ?_⟩
  · exact alistFind_insert_self s.sessions session_id _
  · exact fsRead_fsWrite_self s.fs (tmpPathOf session_id) []

/-! ### C7: unknown session id -/

/-- Claim C7: for every session id not present in the record set,
`AppendChunk` fails with `NotFound` (HTTP 404) and so does
`FinalizeSession`; an error is raised before anything is written, so the
record set and the filesystem are untouched. -/
theorem C7_unknown_session_not_found (s : SrvState) (session_id : String)
    (data : List Nat) (content_range upload_id : Option String)
    (h : alistFind s.sessions session_id = none) :
    upload_chunk session_id data content_range upload_id s =
      Except.error { status := 404, detail := "session not found" } ∧
    finalize session_id s =
      Except.error { status := 404, detail := "session not found" } := by
  constructor
  · unfold upload_chunk
    rw [h]
  · unfold finalize
    rw [h]

theorem C7_witness :
    upload_chunk "missing" [1, 2] none none SrvState.init =
      Except.error { status := 404, detail := "session not found" } ∧
    finalize "missing" SrvState.init =
      Except.error { status := 404, detail := "session not found" } :=
  C7_unknown_session_not_found SrvState.init "missing" [1, 2] none none rfl

/-! ### C5: bytes_received is the on-disk size -/

/-- Claim C5: after every successful `AppendChunk`, the stored
`bytes_received` equals the actual size of the session's temporary file
in the resulting state (it is recomputed from the file after the
write). -/
theorem C5_bytes_received_from_disk (s : SrvState) (session_id : String)
    (data : List Nat) (content_range upload_id : Option String)
    (s' : SrvState) (resp : ChunkResp)
    (h : upload_chunk session_id data content_range upload_id s =
      Except.ok (s', resp)) :
    ∃ row', alistFind s'.sessions session_id = some row' ∧
      (fsRead s'.fs row'.tmp_path).map List.length =
        some row'.bytes_received := by
  obtain ⟨row, hrow, hm, hfs, hsess, hresp⟩ :=
    upload_chunk_ok_inv session_id data content_range upload_id s s' resp h
  refine ⟨{ row with bytes_received := statSize (fsAppend s.fs row.tmp_path data) row.tmp_path }, ?_, ?_⟩
  · rw [hsess]
    exact alistFind_insert_self s.sessions session_id _
  · rw [hfs]
    simp [statSize, fsRead_fsAppend_self]

theorem C5_witness :
    ∃ row', alistFind
        (SrvState.mk [(tmpPathOf "S", [9, 9, 9])]
          [("S", { id := "S", upload_id := "U", filename := "a.mp4",
                   size := none, mime := none, created_at := "T",
                   status := "uploading", tmp_path := tmpPathOf "S",
                   final_path := none, bytes_received := 3 })]).sessions "S" =
        some row' ∧
      (fsRead (SrvState.mk [(tmpPathOf "S", [9, 9, 9])]
          [("S", { id := "S", upload_id := "U", filename := "a.mp4",
                   size := none, mime := none, created_at := "T",
                   status := "uploading", tmp_path := tmpPathOf "S",
                   final_path := none, bytes_received := 3 })]).fs
          row'.tmp_path).map List.length = some row'.bytes_received := by
  have h0 := C5_bytes_received_from_disk
    (SrvState.mk [(tmpPathOf "S", [9])]
      [("S", { id := "S", upload_id := "U", filename := "a.mp4",
               size := none, mime := none, created_at := "T",
               status := "uploading", tmp_path := tmpPathOf "S",
               final_path := none, bytes_received := 1 })])
    "S" [9, 9] none none
    (SrvState.mk [(tmpPathOf "S", [9, 9, 9])]
      [("S", { id := "S", upload_id := "U", filename := "a.mp4",
               size := none, mime := none, created_at := "T",
               status := "uploading", tmp_path := tmpPathOf "S",
               final_path := none, bytes_received := 3 })])
    { ok := true, bytes_received := 3, content_range := none } (by rfl)
  exact h0

/-! ### C4: upload_id guard -/

/-- A session state used to exhibit the empty-header gap in the
`upload_id` guard: the stored `upload_id` is `"u"`. -/
def c4state : SrvState :=
  { fs := [(tmpPathOf "S", [])]
    sessions :=
      [("S", { id := "S", upload_id := "u", filename := "a.mp4",
               size := none, mime := none, created_at := "T",
               status := "uploading", tmp_path := tmpPathOf "S",
               final_path := none, bytes_received := 0 })] }

/-- Claim C4 as stated is false: `""` is an upload_id different from the
stored `"u"`, yet the append succeeds, because the guard
`if upload_id and upload_id != row["upload_id"]` skips the comparison
for a falsy (empty) header value. -/
theorem C4_counterexample :
    ("" : String) ≠ "u" ∧
    upload_chunk "S" [7] none (some "") c4state =
      Except.ok
        ({ fs := [(tmpPathOf "S", [7])]
           sessions :=
             [("S", { id := "S", upload_id := "u", filename := "a.mp4",
                      size := none, mime := none, created_at := "T",
                      status := "uploading", tmp_path := tmpPathOf "S",
                      final_path := none, bytes_received := 1 })] },
         { ok := true, bytes_received := 1, content_range := none }) := by
  exact ⟨by decide, by rfl⟩

/-- Claim C4, amended: an `AppendChunk` that supplies a NON-EMPTY
upload_id different from the session's stored upload_id fails with
`Conflict` (HTTP 409) before anything is written, so the temporary file
is unmodified; when no upload_id is supplied the check is bypassed and
the append proceeds (and likewise for an empty-string upload_id, which
the truthiness test treats as absent). -/
theorem C4_mismatch_conflict (s : SrvState) (session_id : String)
    (row : SessionRow) (data : List Nat) (content_range : Option String)
    (u : String)
    (hrow : alistFind s.sessions session_id = some row)
    (hne : u ≠ "") (hmm : u ≠ row.upload_id) :
    upload_chunk session_id data content_range (some u) s =
      Except.error { status := 409, detail := "upload_id mismatch" } ∧
    (∃ s' resp, upload_chunk session_id data content_range none s =
      Except.ok (s', resp)) := by
  constructor
  · have hb : upload_id_mismatch (some u) row.upload_id = true := by
      simp [upload_id_mismatch, hne, hmm]
    unfold upload_chunk
    simp only [hrow, hb, if_true]
  · have hb : upload_id_mismatch none row.upload_id = false := rfl
    unfold upload_chunk
    simp only [hrow, hb, Bool.false_eq_true, if_false]
    exact ⟨_, _, rfl⟩

theorem C4_witness :
    upload_chunk "S" [7] none (some "w") c4state =
      Except.error { status := 409, detail := "upload_id mismatch" } ∧
    (∃ s' resp, upload_chunk "S" [7] none none c4state =
      Except.ok (s', resp)) := by
  have h0 := C4_mismatch_conflict c4state "S"
    { id := "S", upload_id := "u", filename := "a.mp4",
      size := none, mime := none, created_at := "T",
      status := "uploading", tmp_path := tmpPathOf "S",
      final_path := none, bytes_received := 0 }
    [7] none "w" (by rfl) (by decide) (by decide)
  exact h0

/-! ### C1: chunk appends concatenate -/

/-- A sequence of `AppendChunk` calls on one session (no upload_id
header, as the guard is presence-gated). -/
def appendAll (session_id : String) (chunks : List (List Nat))
    (s : SrvState) : Except HErr SrvState :=
  match chunks with
  | [] => Except.ok s
  | data :: rest =>
    match upload_chunk session_id data none none s with
    | Except.error e => Except.error e
    | Except.ok (s1, _) => appendAll session_id rest s1

theorem appendAll_ok (session_id : String) :
    ∀ (chunks : List (List Nat)) (s : SrvState) (row : SessionRow)
      (content : List Nat),
    alistFind s.sessions session_id = some row →
    fsRead s.fs row.tmp_path = some content →
    row.bytes_received = content.length →
    ∃ s', appendAll session_id chunks s = Except.ok s' ∧
      alistFind s'.sessions session_id =
        some { row with bytes_received := (content ++ chunks.flatten).length } ∧
      fsRead s'.fs row.tmp_path = some (content ++ chunks.flatten) ∧
      (∀ p, p ≠ row.tmp_path → fsRead s'.fs p = fsRead s.fs p) ∧
      (∀ k, k ≠ session_id →
        alistFind s'.sessions k = alistFind s.sessions k) := by
  intro chunks
  induction chunks with
  | nil =>
    intro s row content hrow hfs hb
    have he : ({ row with
        bytes_received := (content ++ ([] : List (List Nat)).flatten).length } :
          SessionRow) = row := by
      have hl : (content ++ ([] : List (List Nat)).flatten).length =
          row.bytes_received := by
        simp [hb]
      rw [hl]
    refine ⟨s, rfl, ?_, ?_, fun p _ => rfl, fun k _ => rfl⟩
    · rw [he]
      exact hrow
    · simpa using hfs
  | cons data rest ih =>
    intro s row content hrow hfs hb
    have hstep : upload_chunk session_id data none none s =
        Except.ok
          ({ fs := fsAppend s.fs row.tmp_path data
             sessions := alistInsert s.sessions session_id
               { row with bytes_received :=
                   statSize (fsAppend s.fs row.tmp_path data) row.tmp_path } },
           { ok := true
             bytes_received :=
               statSize (fsAppend s.fs row.tmp_path data) row.tmp_path
             content_range := none }) := by
      unfold upload_chunk
      simp only [hrow]
      rfl
    have hsz : statSize (fsAppend s.fs row.tmp_path data) row.tmp_path =
        (content ++ data).length := by
      simp [statSize, fsRead_fsAppend_self, hfs]
    have hfs1 : fsRead (fsAppend s.fs row.tmp_path data) row.tmp_path =
        some (content ++ data) := by
      rw [fsRead_fsAppend_self, hfs]
      rfl
    obtain ⟨s', happ, hrow', hfs', hop, hok⟩ :=
      ih { fs := fsAppend s.fs row.tmp_path data
           sessions := alistInsert s.sessions session_id
             { row with bytes_received :=
                 statSize (fsAppend s.fs row.tmp_path data) row.tmp_path } }
        { row with bytes_received :=
            statSize (fsAppend s.fs row.tmp_path data) row.tmp_path }
        (content ++ data)
        (alistFind_insert_self s.sessions session_id _)
        hfs1
        hsz
    refine ⟨s', ?_, ?_, ?_, ?_, ?_⟩
    · unfold appendAll
      rw [hstep]
      exact happ
    · rw [hrow']
      have hlen : ((content ++ data) ++ rest.flatten).length =
          (content ++ (data :: rest).flatten).length := by
        simp
      simp only [hlen]
    · have hcat : (content ++ data) ++ rest.flatten =
          content ++ (data :: rest).flatten := by
        simp
      rw [← hcat]
      exact hfs'
    · intro p hp
      rw [hop p hp]
      exact fsRead_fsAppend_ne s.fs row.tmp_path p data hp
    · intro k hk
      rw [hok k hk]
      exact alistFind_insert_ne s.sessions session_id k _ hk

/-! ### A general success lemma for finalize -/

theorem dest_path_dir (session_id : String) (row : SessionRow) (fs : FS) :
    (dest_path_of session_id row fs).dir = Dir.sessDir := by
  unfold dest_path_of
  by_cases h : fsExists fs { dir := Dir.sessDir, name := final_name_of session_id row }
  · simp [h]
  · simp [h]

theorem tmp_ne_dest (session_id : String) (row : SessionRow) (fs : FS)
    (h : row.tmp_path.dir = Dir.tmpDir) :
    row.tmp_path ≠ dest_path_of session_id row fs := by
  intro hc
  rw [hc, dest_path_dir] at h
  exact absurd h (by decide)

theorem finalize_ok (s : SrvState) (session_id : String) (row : SessionRow)
    (content : List Nat)
    (hrow : alistFind s.sessions session_id = some row)
    (hfs : fsRead s.fs row.tmp_path = some content)
    (hne : row.tmp_path ≠ dest_path_of session_id row s.fs) :
    finalize session_id s =
      Except.ok
        ({ fs := fsMove s.fs row.tmp_path (dest_path_of session_id row s.fs)
           sessions := alistInsert s.sessions session_id
             { row with
               final_path := some (dest_path_of session_id row s.fs)
               status := "complete"
               size := some content.length } },
         { session_id := session_id
           final_path := dest_path_of session_id row s.fs
           size := content.length }) := by
  have hsz : statSize
      (fsMove s.fs row.tmp_path (dest_path_of session_id row s.fs))
      (dest_path_of session_id row s.fs) = content.length := by
    rw [statSize, fsRead_fsMove_dst s.fs _ _ content hfs hne]
    rfl
  have hex : fsExists s.fs row.tmp_path = true := by
    rw [fsExists, hfs]
    rfl
  unfold finalize
  simp only [hrow, hex, if_true]
  rw [hsz]

/-! ### C1 -/

/-- The session row of the C1 scenario after `n` bytes have been
received. -/
def scRow (n : Nat) : SessionRow :=
  { id := "S", upload_id := "U", filename := "a.mp4", size := some 10,
    mime := none, created_at := "T", status := "uploading",
    tmp_path := tmpPathOf "S", final_path := none, bytes_received := n }

/-- The scenario of C1: start a session with filename `"a.mp4"` and
declared size 10 on a fresh server, append two chunks, finalize, and
report the final size together with the final file's content. -/
def runScenario (c6 c4 : List Nat) : Option (Nat × Option (List Nat)) :=
  match appendAll "S" [c6, c4]
      (start_session { filename := "a.mp4", size := some 10, mime := none }
        "S" "U" "T" SrvState.init).1 with
  | Except.error _ => none
  | Except.ok s1 =>
    match finalize "S" s1 with
    | Except.error _ => none
    | Except.ok (s2, resp) => some (resp.size, fsRead s2.fs resp.final_path)

/-- Claim C1: for every session and every sequence of `AppendChunk`
calls, the final `bytes_received` equals the sum of the lengths of the
appended payloads and the temporary file holds their concatenation in
append order, however the payload was split; in particular starting a
session with filename `"a.mp4"` and size 10, appending 6 bytes then 4
bytes and finalizing yields a final file of exactly 10 bytes whose
content is the 10 bytes in append order. -/
theorem C1_chunks_concatenate :
    (∀ (req : StartReq) (session_id upload_id created_at : String)
       (s : SrvState) (chunks : List (List Nat)),
      ∃ s', appendAll session_id chunks
          (start_session req session_id upload_id created_at s).1 =
          Except.ok s' ∧
        (∃ row, alistFind s'.sessions session_id = some row ∧
          row.bytes_received = (chunks.map List.length).sum ∧
          fsRead s'.fs (tmpPathOf session_id) = some chunks.flatten)) ∧
    (∀ c6 c4 : List Nat, c6.length = 6 → c4.length = 4 →
      runScenario c6 c4 = some (10, some (c6 ++ c4))) := by
  constructor
  · intro req session_id upload_id created_at s chunks
    obtain ⟨s', happ, hrow', hfs', _, _⟩ :=
      appendAll_ok session_id chunks
        (start_session req session_id upload_id created_at s).1
        { id := session_id, upload_id := upload_id, filename := req.filename,
          size := req.size, mime := req.mime, created_at := created_at,
          status := "uploading", tmp_path := tmpPathOf session_id,
          final_path := none, bytes_received := 0 }
        []
        (alistFind_insert_self s.sessions session_id _)
        (fsRead_fsWrite_self s.fs (tmpPathOf session_id) [])
        rfl
    refine ⟨s', happ, _, hrow', ?_, ?_⟩
    · simp [List.length_flatten]
    · simpa using hfs'
  · intro c6 c4 h6 h4
    obtain ⟨s1, happ, hrow1, hfs1, _, _⟩ :=
      appendAll_ok "S" [c6, c4]
        (start_session { filename := "a.mp4", size := some 10, mime := none }
          "S" "U" "T" SrvState.init).1
        (scRow 0) []
        (by rfl)
        (by rfl)
        rfl
    have hrow1' : alistFind s1.sessions "S" =
        some (scRow (([] ++ [c6, c4].flatten).length)) := hrow1
    have hfs1' : fsRead s1.fs
        (scRow (([] ++ [c6, c4].flatten).length)).tmp_path =
        some ([] ++ [c6, c4].flatten) := hfs1
    have hne : (scRow (([] ++ [c6, c4].flatten).length)).tmp_path ≠
        dest_path_of "S" (scRow (([] ++ [c6, c4].flatten).length)) s1.fs :=
      tmp_ne_dest "S" _ s1.fs rfl
    have hfin := finalize_ok s1 "S" (scRow (([] ++ [c6, c4].flatten).length))
      ([] ++ [c6, c4].flatten) hrow1' hfs1' hne
    unfold runScenario
    simp only [happ, hfin]
    rw [fsRead_fsMove_dst s1.fs _ _ _ hfs1' hne]
    simp [h6, h4]

theorem C1_witness :
    runScenario [0, 1, 2, 3, 4, 5] [6, 7, 8, 9] =
      some (10, some [0, 1, 2, 3, 4, 5, 6, 7, 8, 9]) :=
  C1_chunks_concatenate.2 [0, 1, 2, 3, 4, 5] [6, 7, 8, 9] rfl rfl

/-! ### C3: finalize is not idempotent -/

/-- Claim C3: for every session whose temporary file is at the canonical
tmp path and exists on disk, the first `FinalizeSession` succeeds and
returns the total size of the appended bytes, and a second
`FinalizeSession` right after it fails with `BadState` (HTTP 400, no
temp file), because the first call moved the temporary file away. -/
theorem C3_finalize_twice (s : SrvState) (session_id : String)
    (row : SessionRow) (content : List Nat)
    (hrow : alistFind s.sessions session_id = some row)
    (htmp : row.tmp_path.dir = Dir.tmpDir)
    (hfs : fsRead s.fs row.tmp_path = some content) :
    ∃ s' resp, finalize session_id s = Except.ok (s', resp) ∧
      resp.size = content.length ∧
      finalize session_id s' =
        Except.error { status := 400, detail := "no tmp file to finalize" } := by
  have hne : row.tmp_path ≠ dest_path_of session_id row s.fs :=
    tmp_ne_dest session_id row s.fs htmp
  have hfin := finalize_ok s session_id row content hrow hfs hne
  refine ⟨_, _, hfin, rfl, ?_⟩
  have hrow2 : alistFind
      (alistInsert s.sessions session_id
        { row with
          final_path := some (dest_path_of session_id row s.fs)
          status := "complete"
          size := some content.length }) session_id =
      some { row with
        final_path := some (dest_path_of session_id row s.fs)
        status := "complete"
        size := some content.length } :=
    alistFind_insert_self s.sessions session_id _
  have hgone : fsRead (fsMove s.fs row.tmp_path
      (dest_path_of session_id row s.fs)) row.tmp_path = none :=
    fsRead_fsMove_src s.fs _ _ content hfs hne
  unfold finalize
  simp only [hrow2]
  have hexf : fsExists (fsMove s.fs row.tmp_path
      (dest_path_of session_id row s.fs)) row.tmp_path = false := by
    rw [fsExists, hgone]
    rfl
  simp only [hexf, Bool.false_eq_true, if_false]

theorem C3_witness :
    ∃ s' resp, finalize "S" (SrvState.mk [(tmpPathOf "S", [5, 6])]
        [("S", scRow 2)]) = Except.ok (s', resp) ∧
      resp.size = 2 ∧
      finalize "S" s' =
        Except.error { status := 400, detail := "no tmp file to finalize" } :=
  C3_finalize_twice (SrvState.mk [(tmpPathOf "S", [5, 6])] [("S", scRow 2)])
    "S" (scRow 2) [5, 6] (by rfl) rfl (by rfl)

/-! ### C9: AppendChunk ignores status -/

/-- Claim C9: `AppendChunk` does not check the session's status: on a
session whose status is `"complete"` and whose temporary file is gone
(finalize moved it away), an append with a valid or absent upload_id
still succeeds, silently recreates the temporary file at the recorded
tmp path containing only the new chunk, and sets `bytes_received` to
that new file's size while the status stays `"complete"`. -/
theorem C9_append_after_complete (s : SrvState) (session_id : String)
    (row : SessionRow) (data : List Nat) (content_range : Option String)
    (uid : Option String)
    (hrow : alistFind s.sessions session_id = some row)
    (hst : row.status = "complete")
    (hgone : fsRead s.fs row.tmp_path = none)
    (huid : uid = none ∨ uid = some row.upload_id) :
    ∃ s', upload_chunk session_id data content_range uid s =
        Except.ok (s', { ok := true, bytes_received := data.length,
                         content_range := content_range }) ∧
      fsRead s'.fs row.tmp_path = some data ∧
      (∃ row', alistFind s'.sessions session_id = some row' ∧
        row'.bytes_received = data.length ∧ row'.status = "complete") := by
  have hmf : upload_id_mismatch uid row.upload_id = false := by
    rcases huid with h | h
    · rw [h]
      rfl
    · rw [h]
      simp [upload_id_mismatch]
  have happ : fsAppend s.fs row.tmp_path data =
      fsWrite s.fs row.tmp_path data := by
    rw [fsAppend, hgone]
    rfl
  have hsz : statSize (fsAppend s.fs row.tmp_path data) row.tmp_path =
      data.length := by
    rw [statSize, happ, fsRead_fsWrite_self]
    rfl
  refine ⟨{ fs := fsAppend s.fs row.tmp_path data
            sessions := alistInsert s.sessions session_id
              { row with bytes_received := data.length } }, ?_, ?_, ?_⟩
  · unfold upload_chunk
    simp only [hrow, hmf, Bool.false_eq_true, if_false]
    rw [hsz]
  · rw [happ, fsRead_fsWrite_self]
  · exact ⟨{ row with bytes_received := data.length },
      alistFind_insert_self s.sessions session_id _, rfl, hst⟩

/-- The completed session used to witness C9: the first finalize has
moved the temporary file away. -/
def c9row : SessionRow :=
  { id := "S", upload_id := "U", filename := "a.mp4", size := some 2,
    mime := none, created_at := "T", status := "complete",
    tmp_path := tmpPathOf "S",
    final_path := some { dir := Dir.sessDir, name := "a.mp4" },
    bytes_received := 2 }

theorem C9_witness :
    ∃ s', upload_chunk "S" [1, 2, 3] none none
        (SrvState.mk [({ dir := Dir.sessDir, name := "a.mp4" }, [4, 5])]
          [("S", c9row)]) =
        Except.ok (s', { ok := true, bytes_received := 3,
                         content_range := none }) ∧
      fsRead s'.fs c9row.tmp_path = some [1, 2, 3] ∧
      (∃ row', alistFind s'.sessions "S" = some row' ∧
        row'.bytes_received = 3 ∧ row'.status = "complete") :=
  C9_append_after_complete
    (SrvState.mk [({ dir := Dir.sessDir, name := "a.mp4" }, [4, 5])]
      [("S", c9row)])
    "S" c9row [1, 2, 3] none none (by rfl) rfl (by rfl) (Or.inl rfl)

/-! ### C10: the falsy-filename fallback -/

/-- `SESS_DIR / name`. -/
def sessPath (n : String) : FPath :=
  { dir := Dir.sessDir, name := n }

/-- Claim C10: if a session's filename is the empty string,
`FinalizeSession` falls back to the default final name
`"<session_id>.mp4"`; for every non-empty filename the destination name
is the filename itself, subject only to the collision disambiguation. -/
theorem C10_empty_filename_fallback (s : SrvState) (session_id : String)
    (row : SessionRow) (content : List Nat)
    (hrow : alistFind s.sessions session_id = some row)
    (htmp : row.tmp_path.dir = Dir.tmpDir)
    (hfs : fsRead s.fs row.tmp_path = some content) :
    (∃ s', finalize session_id s =
        Except.ok (s', { session_id := session_id
                         final_path := dest_path_of session_id row s.fs
                         size := content.length })) ∧
    (row.filename = "" →
      final_name_of session_id row = session_id ++ ".mp4") ∧
    (row.filename ≠ "" → final_name_of session_id row = row.filename) ∧
    (fsExists s.fs (sessPath (final_name_of session_id row)) = false →
      dest_path_of session_id row s.fs =
        sessPath (final_name_of session_id row)) := by
  refine ⟨⟨_, finalize_ok s session_id row content hrow hfs
      (tmp_ne_dest session_id row s.fs htmp)⟩, ?_, ?_, ?_⟩
  · intro h
    rw [final_name_of, if_pos h]
  · intro h
    rw [final_name_of, if_neg h]
  · intro h
    simp only [sessPath] at h
    simp [dest_path_of, sessPath, h]

/-- The empty-filename session used to witness C10. -/
def c10row : SessionRow :=
  { id := "E", upload_id := "U", filename := "", size := none,
    mime := none, created_at := "T", status := "uploading",
    tmp_path := tmpPathOf "E", final_path := none, bytes_received := 1 }

theorem C10_witness :
    (∃ s', finalize "E" (SrvState.mk [(tmpPathOf "E", [9])] [("E", c10row)]) =
        Except.ok (s', { session_id := "E"
                         final_path := dest_path_of "E" c10row
                           (SrvState.mk [(tmpPathOf "E", [9])]
                             [("E", c10row)]).fs
                         size := 1 })) ∧
    (c10row.filename = "" → final_name_of "E" c10row = "E" ++ ".mp4") ∧
    (c10row.filename ≠ "" → final_name_of "E" c10row = c10row.filename) ∧
    (fsExists (SrvState.mk [(tmpPathOf "E", [9])] [("E", c10row)]).fs
        (sessPath (final_name_of "E" c10row)) = false →
      dest_path_of "E" c10row
          (SrvState.mk [(tmpPathOf "E", [9])] [("E", c10row)]).fs =
        sessPath (final_name_of "E" c10row)) :=
  C10_empty_filename_fallback
    (SrvState.mk [(tmpPathOf "E", [9])] [("E", c10row)])
    "E" c10row [9] (by rfl) rfl (by rfl)

/-! ### C8: status only moves uploading → complete -/

/-- One client operation against the service. -/
inductive Op : Type
  | start (req : StartReq) (session_id upload_id created_at : String) : Op
  | chunk (session_id : String) (data : List Nat)
      (content_range upload_id : Option String) : Op
  | fin (session_id : String) : Op

/-- Run one operation; an operation answered with an HTTP error leaves
the state unchanged (the exception is raised before any save). -/
def applyOp (op : Op) (s : SrvState) : SrvState :=
  match op with
  | Op.start req sid uid ts => (start_session req sid uid ts s).1
  | Op.chunk sid data cr uid =>
    match upload_chunk sid data cr uid s with
    | Except.error _ => s
    | Except.ok (s1, _) => s1
  | Op.fin sid =>
    match finalize sid s with
    | Except.error _ => s
    | Except.ok (s1, _) => s1

def applyOps (ops : List Op) (s : SrvState) : SrvState :=
  match ops with
  | [] => s
  | op :: rest => applyOps rest (applyOp op s)

/-- `uuid4().hex` freshness: a start operation never reuses an id that
already names a session. -/
def opFresh (op : Op) (s : SrvState) : Prop :=
  match op with
  | Op.start _ sid _ _ => alistFind s.sessions sid = none
  | _ => True

def freshTrace (ops : List Op) (s : SrvState) : Prop :=
  match ops with
  | [] => True
  | op :: rest => opFresh op s ∧ freshTrace rest (applyOp op s)

theorem applyOp_status (op : Op) (s : SrvState) (sid : String)
    (row : SessionRow)
    (hfresh : opFresh op s)
    (hrow : alistFind s.sessions sid = some row) :
    ∃ row', alistFind (applyOp op s).sessions sid = some row' ∧
      (row'.status = row.status ∨ row'.status = "complete") := by
  cases op with
  | start req sid2 uid ts =>
    have hne : sid ≠ sid2 := by
      intro hc
      rw [hc, hfresh] at hrow
      exact absurd hrow (by simp)
    refine ⟨row, ?_, Or.inl rfl⟩
    show alistFind (alistInsert s.sessions sid2 _) sid = some row
    rw [alistFind_insert_ne s.sessions sid2 sid _ hne]
    exact hrow
  | chunk sid2 data cr uid =>
    cases hc : upload_chunk sid2 data cr uid s with
    | error e =>
      refine ⟨row, ?_, Or.inl rfl⟩
      simp only [applyOp, hc]
      exact hrow
    | ok p =>
      obtain ⟨row2, hrow2, _, _, hsess, _⟩ :=
        upload_chunk_ok_inv sid2 data cr uid s p.1 p.2 hc
      by_cases hs : sid = sid2
      · subst hs
        rw [hrow] at hrow2
        have hr : row = row2 := Option.some.inj hrow2
        refine ⟨{ row2 with bytes_received := statSize (fsAppend s.fs row2.tmp_path data) row2.tmp_path }, ?_, Or.inl ?_⟩
        · simp only [applyOp, hc, hsess]
          exact alistFind_insert_self s.sessions sid _
        · rw [hr]
      · refine ⟨row, ?_, Or.inl rfl⟩
        simp only [applyOp, hc, hsess]
        rw [alistFind_insert_ne s.sessions sid2 sid _ hs]
        exact hrow
  | fin sid2 =>
    cases hc : finalize sid2 s with
    | error e =>
      refine ⟨row, ?_, Or.inl rfl⟩
      simp only [applyOp, hc]
      exact hrow
    | ok p =>
      obtain ⟨row2, hrow2, _, _, hsess, _⟩ :=
        finalize_ok_inv sid2 s p.1 p.2 hc
      by_cases hs : sid = sid2
      · subst hs
        refine ⟨{ row2 with final_path := some (dest_path_of sid row2 s.fs), status := "complete", size := some (statSize (fsMove s.fs row2.tmp_path (dest_path_of sid row2 s.fs)) (dest_path_of sid row2 s.fs)) }, ?_, Or.inr ?_⟩
        · simp only [applyOp, hc, hsess]
          exact alistFind_insert_self s.sessions sid _
        · rfl
      · refine ⟨row, ?_, Or.inl rfl⟩
        simp only [applyOp, hc, hsess]
        rw [alistFind_insert_ne s.sessions sid2 sid _ hs]
        exact hrow

/-- Claim C8: over every sequence of operations (with fresh ids for the
start operations), a session whose status is `"complete"` keeps status
`"complete"` forever; and a single operation only ever keeps a session's
status or sets it to `"complete"`, so the status field transitions only
from `"uploading"` to `"complete"` and is never set back. -/
theorem C8_status_monotone :
    (∀ (ops : List Op) (s : SrvState) (sid : String) (row : SessionRow),
      freshTrace ops s → alistFind s.sessions sid = some row →
      row.status = "complete" →
      ∃ row', alistFind (applyOps ops s).sessions sid = some row' ∧
        row'.status = "complete") ∧
    (∀ (op : Op) (s : SrvState) (sid : String) (row row' : SessionRow),
      opFresh op s → alistFind s.sessions sid = some row →
      alistFind (applyOp op s).sessions sid = some row' →
      row'.status = row.status ∨ row'.status = "complete") := by
  constructor
  · intro ops
    induction ops with
    | nil =>
      intro s sid row _ hrow hst
      exact ⟨row, hrow, hst⟩
    | cons op rest ih =>
      intro s sid row hft hrow hst
      obtain ⟨hfr, hft'⟩ := hft
      obtain ⟨row1, hrow1, hd⟩ := applyOp_status op s sid row hfr hrow
      have hst1 : row1.status = "complete" := by
        rcases hd with h | h
        · rw [h, hst]
        · exact h
      exact ih (applyOp op s) sid row1 hft' hrow1 hst1
  · intro op s sid row row' hfr hrow hrow'
    obtain ⟨row'', hrow'', hd⟩ := applyOp_status op s sid row hfr hrow
    rw [hrow'] at hrow''
    rw [Option.some.inj hrow'']
    exact hd

theorem C8_witness :
    ∃ row', alistFind
        (applyOps [Op.fin "S"] (SrvState.mk [] [("S", c9row)])).sessions "S" =
        some row' ∧
      row'.status = "complete" :=
  C8_status_monotone.1 [Op.fin "S"] (SrvState.mk [] [("S", c9row)]) "S" c9row
    ⟨trivial, trivial⟩ (by rfl) rfl

/-! ### C2: collision handling in finalize -/

theorem splitext_append (p : String) :
    (splitext p).1 ++ (splitext p).2 = p := by
  unfold splitext
  cases h : extIdx p with
  | none => simp
  | some d =>
    simp only [h]
    have hmk : String.mk (p.data.take d) ++ String.mk (p.data.drop d) =
        String.mk (p.data.take d ++ p.data.drop d) := rfl
    show String.mk (p.data.take d) ++ String.mk (p.data.drop d) = p
    rw [hmk, List.take_append_drop]

/-- The session of the C2 counterexample: session id `"B"`, filename
`"a.mp4"`, three bytes pending in the temporary file. -/
def c2row : SessionRow :=
  { id := "B", upload_id := "U", filename := "a.mp4", size := none,
    mime := none, created_at := "T", status := "uploading",
    tmp_path := tmpPathOf "B", final_path := none, bytes_received := 1 }

/-- The state of the C2 counterexample: both the derived destination
`sessions/a.mp4` and the disambiguated destination `sessions/a_B.mp4`
already hold files (the latter is reachable as the output of an earlier,
unrelated session that was started with filename `"a_B.mp4"`). -/
def c2state : SrvState :=
  { fs := [(tmpPathOf "B", [3]), (sessPath "a.mp4", [1]),
           (sessPath "a_B.mp4", [2])]
    sessions := [("B", c2row)] }

/-- Claim C2 as stated is false: finalizing session `"B"` picks the
disambiguated path `sessions/a_B.mp4`, but a file with content `[2]`
already sits there and the move overwrites it with the temporary file's
content `[3]` — so `FinalizeSession` can overwrite an existing unrelated
file (the disambiguation is only one level deep). -/
theorem C2_counterexample :
    fsRead c2state.fs (sessPath "a_B.mp4") = some [2] ∧
    (match finalize "B" c2state with
     | Except.ok (s', resp) =>
       some (resp.final_path, fsRead s'.fs (sessPath "a_B.mp4"))
     | Except.error _ => none) =
      some (sessPath "a_B.mp4", some [3]) := by
  exact ⟨rfl, rfl⟩

/-- Claim C2, amended: when a file already exists at the destination
path derived from the session's filename, `FinalizeSession` chooses the
disambiguated path (the filename's stem with `"_" ++ session_id`
appended, keeping the extension) and the pre-existing file at the
derived destination is unchanged; however, if a file already occupies
the disambiguated path as well, the move overwrites it, so finalize does
not never-overwrite in general (see the counterexample). -/
theorem C2_collision_disambiguates (s : SrvState) (session_id : String)
    (row : SessionRow) (content : List Nat)
    (hrow : alistFind s.sessions session_id = some row)
    (htmp : row.tmp_path.dir = Dir.tmpDir)
    (hfs : fsRead s.fs row.tmp_path = some content)
    (hex : fsExists s.fs (sessPath (final_name_of session_id row)) = true) :
    ∃ s', finalize session_id s =
        Except.ok (s',
          { session_id := session_id
            final_path := sessPath
              ((splitext (final_name_of session_id row)).1 ++ "_" ++
                session_id ++ (splitext (final_name_of session_id row)).2)
            size := content.length }) ∧
      fsRead s'.fs (sessPath (final_name_of session_id row)) =
        fsRead s.fs (sessPath (final_name_of session_id row)) ∧
      fsRead s'.fs (sessPath
          ((splitext (final_name_of session_id row)).1 ++ "_" ++
            session_id ++ (splitext (final_name_of session_id row)).2)) =
        some content := by
  have hdisam : dest_path_of session_id row s.fs =
      sessPath ((splitext (final_name_of session_id row)).1 ++ "_" ++
        session_id ++ (splitext (final_name_of session_id row)).2) := by
    simp only [sessPath] at hex
    simp [dest_path_of, sessPath, hex]
  have hne : row.tmp_path ≠ dest_path_of session_id row s.fs :=
    tmp_ne_dest session_id row s.fs htmp
  have hfin := finalize_ok s session_id row content hrow hfs hne
  rw [hdisam] at hfin hne
  have hne1 : sessPath (final_name_of session_id row) ≠ row.tmp_path := by
    intro hc
    rw [← hc] at htmp
    simp [sessPath] at htmp
  have hne2 : sessPath (final_name_of session_id row) ≠
      sessPath ((splitext (final_name_of session_id row)).1 ++ "_" ++
        session_id ++ (splitext (final_name_of session_id row)).2) := by
    intro hc
    have hname := congrArg FPath.name hc
    have hlen := congrArg String.length hname
    have h1 : (final_name_of session_id row).length =
        (splitext (final_name_of session_id row)).1.length +
          (splitext (final_name_of session_id row)).2.length := by
      conv_lhs => rw [← splitext_append (final_name_of session_id row)]
      simp [String.length_append]
    have hu : ("_" : String).length = 1 := rfl
    simp only [sessPath, String.length_append, hu, h1] at hlen
    omega
  refine ⟨_, hfin, ?_, ?_⟩
  · exact fsRead_fsMove_other s.fs row.tmp_path _ _ hne1 hne2
  · exact fsRead_fsMove_dst s.fs _ _ content hfs hne

theorem C2_witness :
    ∃ s', finalize "S"
        (SrvState.mk [(tmpPathOf "S", [7]), (sessPath "a.mp4", [1])]
          [("S", scRow 1)]) =
        Except.ok (s',
          { session_id := "S"
            final_path := sessPath
              ((splitext (final_name_of "S" (scRow 1))).1 ++ "_" ++
                "S" ++ (splitext (final_name_of "S" (scRow 1))).2)
            size := 1 }) ∧
      fsRead s'.fs (sessPath (final_name_of "S" (scRow 1))) =
        fsRead (SrvState.mk [(tmpPathOf "S", [7]), (sessPath "a.mp4", [1])]
          [("S", scRow 1)]).fs (sessPath (final_name_of "S" (scRow 1))) ∧
      fsRead s'.fs (sessPath
          ((splitext (final_name_of "S" (scRow 1))).1 ++ "_" ++
            "S" ++ (splitext (final_name_of "S" (scRow 1))).2)) =
        some [7] :=
  C2_collision_disambiguates
    (SrvState.mk [(tmpPathOf "S", [7]), (sessPath "a.mp4", [1])]
      [("S", scRow 1)])
    "S" (scRow 1) [7] (by rfl) rfl (by rfl) (by rfl)
